import Mathlib

/-
Shallow embedding of gamh86/JSON_Parser (src/json.c) for checking the
natural-language specification against the code.

Modelling conventions:
* The input buffer is a `List Char`; a cursor is a `Nat` index.  Reading at
  or past the end of the buffer yields the NUL character, matching the
  NUL-terminated buffer the demonstration program feeds to the parser.
* `assert` violations and the explicit `abort()` call terminate the process
  in C; the embedding returns an `Except` error instead (`Err.assertFail`,
  `Err.abortCall`).  Dereferencing a pointer that is still NULL (the global
  `value` before any member name has been parsed, or the NULL result of
  `memchr`) is modelled as `Err.nullDeref` / `Err.fatal`.
* The C code's `while` loops and the scan loops are modelled with explicit
  fuel (structural recursion), so every definition computes by `rfl`;
  running out of fuel yields `Err.fuelOut`, which does not occur at the
  fuel values used in the concrete theorems below.
* Byte-level sizing defects of the C source (it allocates `json_uvalue_t`
  sized cells while indexing `json_value_t` sized ones, and the payload
  union `value->value` is never allocated) are memory-layout issues below
  the abstraction level of this embedding: a value's payload is modelled as
  an inline optional field, `none` meaning "never written".
-/

namespace JsonC

/-! ## Character constants (json.c `#define`s) -/

def CR : Char := '\r'
def NL : Char := '\n'
def TAB : Char := '\t'
def LBRACE : Char := '\x7b'
def RBRACE : Char := '\x7d'
def LBRACK : Char := '['
def RBRACK : Char := ']'
def DQUOTE : Char := '\"'
def COMMA : Char := ','
def SPACE : Char := ' '

def IS_CRNL (c : Char) : Bool := c == CR || c == NL

/-! ## Token kinds

The `TOK_` enum of json.c defines the nine kinds `TOK_SPACE .. TOK_DIGIT`.
The control flow of json.c additionally references `TOK_COLON`, `TOK_MINUS`
and `TOK_ARRAY`, which the enum does not define; they come from a
declaration outside src/.  Modelled from the spec: the spec (§4.1, §9)
records colon and minus as *distinct* token kinds that are absent from the
classification switch, so any values distinct from the nine classifier
kinds are faithful; we use 9, 10 and 11. -/

def TOK_SPACE : Nat := 0
def TOK_LBRACE : Nat := 1
def TOK_RBRACE : Nat := 2
def TOK_LBRACK : Nat := 3
def TOK_RBRACK : Nat := 4
def TOK_DQUOTE : Nat := 5
def TOK_COMMA : Nat := 6
def TOK_CHARSEQ : Nat := 7
def TOK_DIGIT : Nat := 8
def TOK_COLON : Nat := 9
def TOK_MINUS : Nat := 10
def TOK_ARRAY : Nat := 11

/-! ## Value type tags (the `VALUE_` enum) -/

def VALUE_STRING : Nat := 0
def VALUE_NULL : Nat := 1
def VALUE_BOOLEAN : Nat := 2
def VALUE_NUMBER : Nat := 3
def VALUE_FLOAT : Nat := 4
def VALUE_DOUBLE : Nat := 5
def VALUE_ARRAY : Nat := 6
def VALUE_OBJECT : Nat := 7

def ARRAY_END_SENTINEL : Int := 0xdeadbeef

/-! ## The tokenizer (`lex`)

`getc inp p` is `*(json_data + p)`; past the buffer it reads the NUL
terminator. -/

def getc (inp : List Char) (p : Nat) : Char := inp.getD p (Char.ofNat 0)

def IS_CNTRLSPACE (c : Char) : Bool := IS_CRNL c || c == TAB

/-- Length of the run of CR/NL/TAB characters at the head of a list
(the `while (IS_CNTRLSPACE(*ptr)) ++ptr;` skip). -/
def ctrlRun : List Char → Nat
  | [] => 0
  | c :: cs => if IS_CNTRLSPACE c then ctrlRun cs + 1 else 0

/-- Length of the run of plain spaces at the head of a list
(the `while (*ptr == SPACE) ++ptr;` skip). -/
def spaceRun : List Char → Nat
  | [] => 0
  | c :: cs => if c == SPACE then spaceRun cs + 1 else 0

def skipCtrl (inp : List Char) (p : Nat) : Nat := p + ctrlRun (inp.drop p)

def skipSpaces (inp : List Char) (p : Nat) : Nat := p + spaceRun (inp.drop p)

/-- The whitespace phase of `lex`: skip control characters, then skip a run
of spaces only when the preceding character is CR or NL.  At cursor 0 the C
code reads `*(ptr-1)` before the buffer (undefined); the embedding treats
that as "no preceding CR/NL", i.e. no space skip. -/
def wsSkip (inp : List Char) (p : Nat) : Nat :=
  let p1 := skipCtrl inp p
  if getc inp p1 == SPACE && decide (0 < p1) && IS_CRNL (getc inp (p1 - 1)) then
    skipSpaces inp p1
  else p1

/-- The classification `switch` of `lex`.  Punctuation tokens consume their
character; `TOK_DIGIT` and `TOK_CHARSEQ` leave the cursor in place.  There
is no case for `':'`, `'-'` or `','`: they fall to the default and come out
as `TOK_CHARSEQ`. -/
def classify (inp : List Char) (p : Nat) : Nat × Nat :=
  let c := getc inp p
  if c == DQUOTE then (TOK_DQUOTE, p + 1)
  else if c == LBRACE then (TOK_LBRACE, p + 1)
  else if c == RBRACE then (TOK_RBRACE, p + 1)
  else if c == LBRACK then (TOK_LBRACK, p + 1)
  else if c == RBRACK then (TOK_RBRACK, p + 1)
  else if c == SPACE then (TOK_SPACE, p + 1)
  else if c.isDigit then (TOK_DIGIT, p)
  else (TOK_CHARSEQ, p)

/-- `lex`: returns the token kind and the new cursor. -/
def lex (inp : List Char) (p : Nat) : Nat × Nat := classify inp (wsSkip inp p)

/-! ## Lexer state

The C code keeps `current`/`lookahead` in globals; `current` is written but
never read, so the state is the cursor and the lookahead token.
`advance()` shifts a freshly lexed token into the lookahead. -/

structure PSt where
  pos : Nat
  lookahead : Nat
deriving DecidableEq, Repr

def advance (inp : List Char) (st : PSt) : PSt :=
  let r := lex inp st.pos
  { pos := r.2, lookahead := r.1 }

/-! ## Errors

Fail-fast conditions of the C code, which terminates the process. -/

inductive Err where
  /-- an `assert(...)` whose condition is false -/
  | assertFail
  /-- the explicit `abort()` in `parse_array` -/
  | abortCall
  /-- a store or load through a pointer that is still NULL -/
  | nullDeref
  /-- `memchr` found no closing quote and returned NULL, which the C code
  then dereferences -/
  | fatal
  /-- model fuel exhausted (a loop of the C code failed to make progress) -/
  | fuelOut
deriving DecidableEq, Repr

/-! ## String parsing (`parse_charseq` and friends) -/

/-- `memchr(ptr, DQUOTE, n)` over the remainder of the buffer: offset of the
first double quote among the next `n` characters. -/
def memchr : List Char → Nat → Option Nat
  | _, 0 => none
  | [], _ + 1 => none
  | c :: cs, n + 1 =>
    if c == DQUOTE then some 0 else Option.map (fun k => k + 1) (memchr cs n)

/-- The `repeat:` scan of `parse_charseq`: find the next double quote whose
preceding character is not a backslash.  `none` models `memchr` returning
NULL, which the C code dereferences (fatal).  The fuel bounds the strictly
advancing scan; callers pass `inp.length + 1`, which is never exhausted. -/
def scanQuote (inp : List Char) : Nat → Nat → Option Nat
  | 0, _ => none
  | f + 1, p =>
    match memchr (inp.drop p) (inp.length - p) with
    | none => none
    | some off =>
      let q := p + off
      if getc inp (q - 1) == '\\' then scanQuote inp f (q + 1) else some q

/-- `parse_charseq`: copy the characters up to the closing quote into the
`charseq` buffer, then `advance()` and `assert(matches(TOK_DQUOTE))`. -/
def parse_charseq (inp : List Char) (st : PSt) : Except Err (String × PSt) :=
  match scanQuote inp (inp.length + 1) st.pos with
  | none => .error .fatal
  | some q =>
    let s := String.mk ((inp.drop st.pos).take (q - st.pos))
    let st1 := advance inp { pos := q, lookahead := st.lookahead }
    if st1.lookahead = TOK_DQUOTE then .ok (s, st1) else .error .assertFail

/-- `parse_string`: `parse_charseq` followed by `strdup(charseq)`. -/
def parse_string (inp : List Char) (st : PSt) : Except Err (String × PSt) :=
  parse_charseq inp st

/-- `parse_value_name`: parse the quoted name, then `advance()` and
`assert(matches(TOK_COLON))`. -/
def parse_value_name (inp : List Char) (st : PSt) : Except Err (String × PSt) := do
  let r ← parse_string inp st
  let st2 := advance inp r.2
  if st2.lookahead = TOK_COLON then .ok (r.1, st2) else .error .assertFail

/-- Stop characters of `parse_string_nodquotes`'s scan. -/
def nodqStop (c : Char) : Bool := c == COMMA || c == SPACE || IS_CRNL c

/-- Length of the run of non-stop characters at the head of a list.  The C
loop has no end-of-buffer check and would scan on into unowned memory
(undefined behaviour); the embedding truncates the run at the buffer end. -/
def nodqRun : List Char → Nat
  | [] => 0
  | c :: cs => if nodqStop c then 0 else nodqRun cs + 1

/-- `parse_string_nodquotes`: the unquoted word starting at the cursor and
the new cursor. -/
def parse_string_nodquotes (inp : List Char) (p : Nat) : String × Nat :=
  let n := nodqRun (inp.drop p)
  (String.mk ((inp.drop p).take n), p + n)

/-! ## Numbers (`parse_number`) -/

/-- Length of the run of decimal digits at the head of a list
(`while (isdigit(*ptr)) ++ptr;`). -/
def digitsRun : List Char → Nat
  | [] => 0
  | c :: cs => if c.isDigit then digitsRun cs + 1 else 0

/-- `atoi` on a digit string (the C buffer `_number` holds at most 31
characters and `atoi` can overflow `int`; both are byte-level limits outside
this model, which computes the exact value). -/
def atoiVal : List Char → Nat → Nat
  | [], acc => acc
  | c :: cs, acc => atoiVal cs (acc * 10 + (c.toNat - Char.toNat '0'))

/-- `parse_number`: the value of the maximal digit run at the cursor and the
new cursor.  An empty run yields 0, as `atoi("")` does. -/
def parse_number (inp : List Char) (p : Nat) : Int × Nat :=
  let n := digitsRun (inp.drop p)
  (Int.ofNat (atoiVal ((inp.drop p).take n) 0), p + n)

/-- `string_type`: `VALUE_BOOLEAN` exactly for the texts "true" and
"false"; every other bare word, including "null", is `VALUE_NULL`. -/
def string_type (s : String) : Nat :=
  if s == "true" || s == "false" then VALUE_BOOLEAN else VALUE_NULL

/-! ## The value model

`json_node_t` / `json_value_t` / the payload union `json_uvalue_t`, and the
cells of a flat array block (which are `json_value_t` slots written in
place).  A payload of `none` models a `json_uvalue_t` that was never
written; a slot type of `none` models the indeterminate `type` field of a
freshly `realloc`ed cell. -/

mutual
inductive JPayload where
  | pstr (s : String)
  | pint (n : Int)
  | pobj (nd : JNode)
  | parr (block : List ASlot)

inductive JNode where
  | mk (name : Option String) (values : List JValue)

inductive JValue where
  | mk (type : Nat) (name : Option String) (payload : Option JPayload)

inductive ASlot where
  | mk (type : Option Nat) (name : Option String) (payload : Option JPayload)
end

def JNode.name : JNode → Option String
  | .mk n _ => n

def JNode.values : JNode → List JValue
  | .mk _ v => v

def JValue.type : JValue → Nat
  | .mk t _ _ => t

def JValue.name : JValue → Option String
  | .mk _ n _ => n

def JValue.payload : JValue → Option JPayload
  | .mk _ _ p => p

def ASlot.type : ASlot → Option Nat
  | .mk t _ _ => t

def ASlot.name : ASlot → Option String
  | .mk _ n _ => n

def ASlot.payload : ASlot → Option JPayload
  | .mk _ _ p => p

/-- `json_t`: the document handle; `root` is NULL until the parser sets it. -/
structure json_t where
  root : Option JNode

/-! ## The array sub-parser (`parse_array`)

Entered from `JSON_parse` with the lookahead already holding `TOK_LBRACK`.
The C code grows the block cell by cell; the first cell comes from
`calloc` (zeroed: type `VALUE_STRING`, no name, no payload) and each later
cell from `realloc` (indeterminate, modelled as unwritten).  The `realloc`
byte counts systematically lag the highest index in use — a sizing defect
below this model, which tracks exactly the cells the code writes. -/

def freshSlot0 : ASlot := .mk (some VALUE_STRING) none none

def freshSlot : ASlot := .mk none none none

def slotAt (blk : List ASlot) (i : Nat) : ASlot := blk.getD i freshSlot

/-- The `if (matches(...))` chain in the body of `parse_array`'s loop,
acting on the freshly named cell `sl1`: each recognized element kind fills
the cell's payload and type, `TOK_ARRAY` aborts, and an unrecognized token
leaves the cell as it is. -/
def arrayBranch (inp : List Char) (st1 : PSt) (sl1 : ASlot) : Except Err (ASlot × PSt) :=
  if st1.lookahead = TOK_DQUOTE then
    (parse_string inp st1).map fun r =>
      (.mk (some VALUE_STRING) sl1.name (some (.pstr r.1)), r.2)
  else if st1.lookahead = TOK_MINUS then
    let r := parse_number inp st1.pos
    .ok (.mk (some VALUE_NUMBER) sl1.name (some (.pint (r.1 * (-1)))),
         { pos := r.2, lookahead := st1.lookahead })
  else if st1.lookahead = TOK_DIGIT then
    let r := parse_number inp st1.pos
    .ok (.mk (some VALUE_NUMBER) sl1.name (some (.pint r.1)),
         { pos := r.2, lookahead := st1.lookahead })
  else if st1.lookahead = TOK_CHARSEQ then
    (parse_string inp st1).map fun r =>
      (.mk (some (string_type r.1)) sl1.name (some (.pstr r.1)), r.2)
  else if st1.lookahead = TOK_ARRAY then
    .error .abortCall
  else
    .ok (sl1, st1)

/-- One pass of the `for` loop of `parse_array`, on the block built so far
(whose last cell, index `nr`, is the cell for this iteration).  When the
token after the element is `TOK_RBRACK` the loop breaks *before* `++nr`,
so the sentinel is written into cell `nr` — over the element just stored
there.  The sentinel write sets the payload to `0xdeadbeef` and clears the
name but leaves the cell's type field as it was. -/
def parse_array_loop (inp : List Char) : Nat → List ASlot → PSt → Except Err (List ASlot × PSt)
  | 0, _, _ => .error .fuelOut
  | fuel + 1, blk, st =>
    let nr := blk.length - 1
    let st1 := advance inp st
    let sl0 := slotAt blk nr
    let sl1 : ASlot := .mk sl0.type (some ("#" ++ Nat.repr nr)) sl0.payload
    match arrayBranch inp st1 sl1 with
    | .error e => .error e
    | .ok (sl2, st2) =>
      let blk2 := blk.set nr sl2
      let st3 := advance inp st2
      if st3.lookahead = TOK_RBRACK then
        let sl3 := slotAt blk2 nr
        .ok (blk2.set nr (.mk sl3.type none (some (.pint ARRAY_END_SENTINEL))), st3)
      else
        parse_array_loop inp fuel (blk2 ++ [freshSlot]) st3

/-- `parse_array`: start from the single `calloc`ed cell. -/
def parse_array (inp : List Char) (fuel : Nat) (st : PSt) : Except Err (List ASlot × PSt) :=
  parse_array_loop inp fuel [freshSlot0] st

/-! ## The tree builder (`JSON_parse`)

The C builder mutates the current parent node through a pointer that also
lives inside the already-attached object value; the embedding uses the
standard zipper: entering a nested object saves the outer node's fields and
the pending value's name in a stack frame, and leaving reattaches the
finished child.  `STACK_MAX_SIZE` bounds the frame stack as `P_PUSH`'s
assertion does (checked before the store, so no out-of-bounds write).

After `P_PUSH` the global `value` still points at the object value just
attached; a later write through that stale pointer would alias the tree.
Such a write needs builder state 1, which is unreachable (every path that
toggles the state dies first in `parse_value_name`); the embedding keeps
`value` by copy. -/

def STACK_MAX_SIZE : Nat := 256

structure Frame where
  fname : Option String
  fvals : List JValue
  vname : Option String

structure BSt where
  pos : Nat
  lookahead : Nat
  /-- 0 = expecting a member name, 1 = expecting a value (`state`) -/
  state : Nat
  /-- the `minus` flag set by a `TOK_MINUS` token -/
  minus : Bool
  /-- the global `json_value_t *value`; `none` is the initial NULL -/
  value : Option JValue
  /-- the node `parent` points at -/
  parent : JNode
  /-- the parent stack, top first -/
  stack : List Frame

def BSt.lexSt (st : BSt) : PSt := { pos := st.pos, lookahead := st.lookahead }

def BSt.withLex (st : BSt) (l : PSt) : BSt :=
  { st with pos := l.pos, lookahead := l.lookahead }

def advanceB (inp : List Char) (st : BSt) : BSt :=
  let r := lex inp st.pos
  { st with pos := r.2, lookahead := r.1 }

/-- `TOGGLE_STATE()`: `state = (state + 1) & 1`. -/
def TOGGLE (s : Nat) : Nat := (s + 1) % 2

/-- `add_value`: append the value to the parent's pointer array and bump
`nr_values` (the count is the list length). -/
def add_value (parent : JNode) (value : JValue) : JNode :=
  .mk parent.name (parent.values ++ [value])

/-- `case TOK_DIGIT` (also the tail of the `TOK_MINUS` fall-through):
assert value mode, read the digit run, negate if the minus flag is set,
store a `VALUE_NUMBER`, attach it, clear the flag and toggle. -/
def digitCase (inp : List Char) (st : BSt) : Except Err BSt :=
  if st.state = 1 then
    match st.value with
    | none => .error .nullDeref
    | some v =>
      let r := parse_number inp st.pos
      let n : Int := if st.minus then r.1 * (-1) else r.1
      let v1 : JValue := .mk VALUE_NUMBER v.name (some (.pint n))
      .ok { st with pos := r.2, parent := add_value st.parent v1,
                    value := some v1, minus := false, state := TOGGLE st.state }
  else .error .assertFail

/-- `case TOK_MINUS`: assert value mode, set the minus flag, advance and
assert the cursor sits on a digit, then fall through to the digit case. -/
def minusCase (inp : List Char) (st : BSt) : Except Err BSt :=
  if st.state = 1 then
    let st1 := advanceB inp { st with minus := true }
    if (getc inp st1.pos).isDigit then digitCase inp st1 else .error .assertFail
  else .error .assertFail

/-- `case TOK_DQUOTE`: in value mode parse a `VALUE_STRING` and attach it;
in name mode create a fresh zeroed value (`new_value`) and give it the name
from `parse_value_name`.  Both paths toggle the state. -/
def dquoteCase (inp : List Char) (st : BSt) : Except Err BSt :=
  if st.state = 1 then
    match st.value with
    | none => .error .nullDeref
    | some v => do
      let r ← parse_string inp st.lexSt
      let v1 : JValue := .mk VALUE_STRING v.name (some (.pstr r.1))
      .ok { st.withLex r.2 with parent := add_value st.parent v1,
                                value := some v1, state := TOGGLE st.state }
  else do
    let r ← parse_value_name inp st.lexSt
    .ok { st.withLex r.2 with value := some (.mk VALUE_STRING (some r.1) none),
                              state := TOGGLE st.state }

/-- `case TOK_LBRACE`: make a new node the payload of the pending value,
attach that value, push the enclosing parent (bound checked by `P_PUSH`
before the store) and descend. -/
def lbraceCase (st : BSt) : Except Err BSt :=
  match st.value with
  | none => .error .nullDeref
  | some v =>
    if st.stack.length < STACK_MAX_SIZE then
      .ok { st with parent := .mk none [],
                    stack := Frame.mk st.parent.name st.parent.values v.name :: st.stack,
                    value := some (.mk VALUE_OBJECT v.name none) }
    else .error .assertFail

/-- Reattach a finished child node into the frame saved when it was
entered: the object value was `add_value`d at push time, i.e. right after
the values saved in the frame. -/
def reattach (f : Frame) (child : JNode) : JNode :=
  .mk f.fname (f.fvals ++ [.mk VALUE_OBJECT f.vname (some (.pobj child))])

/-- `case TOK_RBRACE`: `parent = P_POP()` (assert the stack is nonempty). -/
def rbraceCase (st : BSt) : Except Err BSt :=
  match st.stack with
  | [] => .error .assertFail
  | f :: rest => .ok { st with parent := reattach f st.parent, stack := rest }

/-- `case TOK_LBRACK`: the pending value becomes a `VALUE_ARRAY` holding
the block from `parse_array`, and is attached.  The state is not toggled. -/
def lbrackCase (inp : List Char) (fuel : Nat) (st : BSt) : Except Err BSt :=
  match st.value with
  | none => .error .nullDeref
  | some v => do
    let r ← parse_array inp fuel st.lexSt
    let v1 : JValue := .mk VALUE_ARRAY v.name (some (.parr r.1))
    .ok { st.withLex r.2 with parent := add_value st.parent v1, value := some v1 }

/-- `case TOK_CHARSEQ`: classify the unquoted word via `string_type`.  The
source falls through to `default:` without `add_value` and without
toggling the state, so the value is only stored in the global. -/
def charseqCase (inp : List Char) (st : BSt) : Except Err BSt :=
  match st.value with
  | none => .error .nullDeref
  | some v =>
    let r := parse_string_nodquotes inp st.pos
    .ok { st with pos := r.2,
                  value := some (.mk (string_type r.1) v.name (some (.pstr r.1))) }

/-- The `switch (lookahead)` body of the parse loop.  `TOK_COMMA` and the
default (which includes `TOK_SPACE` and the closing tokens) do nothing. -/
def stepB (inp : List Char) (fuel : Nat) (st : BSt) : Except Err BSt :=
  if st.lookahead = TOK_MINUS then minusCase inp st
  else if st.lookahead = TOK_DIGIT then digitCase inp st
  else if st.lookahead = TOK_COMMA then .ok st
  else if st.lookahead = TOK_DQUOTE then dquoteCase inp st
  else if st.lookahead = TOK_LBRACE then lbraceCase st
  else if st.lookahead = TOK_RBRACE then rbraceCase st
  else if st.lookahead = TOK_LBRACK then lbrackCase inp fuel st
  else if st.lookahead = TOK_CHARSEQ then charseqCase inp st
  else .ok st

/-- `while (ptr < end)`: run the switch, then `advance()`.  The C source
never assigns the global `end`; per the spec (§6) the caller-supplied end
boundary is the end of the buffer, modelled as `inp.length`. -/
def JSON_loop (inp : List Char) : Nat → BSt → Except Err BSt
  | 0, _ => .error .fuelOut
  | fuel + 1, st =>
    if st.pos < inp.length then
      match stepB inp fuel st with
      | .error e => .error e
      | .ok st1 => JSON_loop inp fuel (advanceB inp st1)
    else .ok st

/-- Pop every remaining frame; the C tree reachable from the root already
contains the in-progress nodes through the attached object values. -/
def rebuild : List Frame → JNode → JNode
  | [], nd => nd
  | f :: rest, nd => rebuild rest (reattach f nd)

/-- `JSON_parse`: allocate the document and the root node named "root",
check the opening brace, then run the loop.  (The source's `return json;`
names an undeclared identifier; the constructed document — the only thing
in scope it can mean — is returned, per spec §6.) -/
def JSON_parse (fuel : Nat) (inp : List Char) : Except Err json_t :=
  let st0 : BSt :=
    { pos := 0, lookahead := 0, state := 0, minus := false, value := none,
      parent := .mk (some ("root")) [], stack := [] }
  let st1 := advanceB inp st0
  if st1.lookahead = TOK_LBRACE then
    match JSON_loop inp fuel (advanceB inp st1) with
    | .error e => .error e
    | .ok st => .ok { root := some (rebuild st.stack st.parent) }
  else .error .assertFail

/-! ## The release walker (`do_free`, `do_free_value_array`, `JSON_free`)

The walker is instrumented: instead of releasing memory it emits one event
per `free(...)` call, identifying the allocation freed by its path in the
tree.  An allocation is released exactly once iff its event occurs exactly
once in the emitted list.  The event vocabulary covers every allocation
category of the data model (spec §3); the walker emits those the code
actually frees. -/

inductive FreeEv where
  /-- `free(root->name)` for the node at `path` -/
  | nodeName (path : List Nat)
  /-- release of the `json_node_t` structure itself at `path` (no free in
  `do_free` emits this) -/
  | nodeStruct (path : List Nat)
  /-- `free(v->name)` for value `path` -/
  | valName (path : List Nat)
  /-- `free(v)` for value `path` -/
  | valStruct (path : List Nat)
  /-- `free(VALUE_CAST(v, char *))` for value `path` -/
  | valStr (path : List Nat)
  /-- `free(root->values)` for the node at `path` -/
  | valuesArray (path : List Nat)
  /-- `free(arr)` for the array block of value `path` -/
  | arrBlock (path : List Nat)
  /-- `free(VALUE_CAST(&arr[i], char *))` in the block of value `path` -/
  | arrElemStr (path : List Nat) (i : Nat)
deriving DecidableEq, Repr

/-- The sentinel test of `do_free_value_array`'s loop:
`VALUE_CAST(&arr[i], int) != 0xdeadbeef` reads the payload as an int.  A
cell whose payload was never written holds indeterminate bytes; the model
takes it as not matching the sentinel. -/
def isSentinelSlot (sl : ASlot) : Bool :=
  match sl.payload with
  | some (.pint v) => v == ARRAY_END_SENTINEL
  | _ => false

/-- The per-cell switch of `do_free_value_array`: only `VALUE_NULL`,
`VALUE_BOOLEAN` and `VALUE_STRING` cells have their payload freed.  Cell
names (the `strdup`ed `"#i"`) are never freed. -/
def slotFrees (path : List Nat) (i : Nat) (sl : ASlot) : List FreeEv :=
  match sl.type with
  | some t =>
    if t = VALUE_NULL || t = VALUE_BOOLEAN || t = VALUE_STRING then
      [.arrElemStr path i]
    else []
  | none => []

/-- `do_free_value_array`: scan cells until the sentinel payload, freeing
text payloads along the way, then free the block in one call.  Scanning
off the end of the block (no sentinel) is undefined behaviour in C and
cannot happen for blocks `parse_array` returns; the model then stops. -/
def do_free_value_array (path : List Nat) : Nat → List ASlot → List FreeEv
  | _, [] => [.arrBlock path]
  | i, sl :: rest =>
    if isSentinelSlot sl then [.arrBlock path]
    else slotFrees path i sl ++ do_free_value_array path (i + 1) rest

mutual
/-- `do_free`: for each index `i` of the node's value array the loop first
frees the node's *name* (once per iteration — the free sits inside the
loop), then releases value `i` by tag, the value's name and the value
structure; after the loop the pointer array is freed.  The node structure
itself is never freed.  The fuel dominates the tree depth; the concrete
documents below use ample fuel. -/
def do_free : Nat → List Nat → JNode → List FreeEv
  | 0, _, _ => []
  | fuel + 1, path, nd =>
    let nameEv : List FreeEv :=
      match nd.name with
      | some _ => [.nodeName path]
      | none => []
    (nd.values.enum.map fun p => nameEv ++ valueFrees fuel path p.1 p.2).flatten
      ++ (match nd.values with
          | [] => []
          | _ :: _ => [.valuesArray path])

/-- The per-value switch of `do_free`: objects recurse, text payloads are
freed, array blocks are scanned, anything else is a no-op; then the
value's name (when set) and the value structure are freed. -/
def valueFrees : Nat → List Nat → Nat → JValue → List FreeEv
  | 0, _, _, _ => []
  | fuel + 1, path, i, v =>
    (match v.type, v.payload with
     | t, some (.pobj child) =>
       if t = VALUE_OBJECT then do_free fuel (path ++ [i]) child else []
     | t, some (.parr blk) =>
       if t = VALUE_ARRAY then do_free_value_array (path ++ [i]) 0 blk else []
     | t, _ =>
       if t = VALUE_NULL || t = VALUE_BOOLEAN || t = VALUE_STRING then
         [.valStr (path ++ [i])]
       else [])
      ++ (match v.name with
          | some _ => [.valName (path ++ [i])]
          | none => [])
      ++ [.valStruct (path ++ [i])]
end

/-- `JSON_free`: nothing to do when the root is NULL; otherwise walk the
root.  The `json_t` handle itself is not freed either. -/
def JSON_free (fuel : Nat) (j : json_t) : List FreeEv :=
  match j.root with
  | none => []
  | some r => do_free fuel [] r

/-! ## Concrete inputs used by the claims -/

/-- The concrete scenario input of the spec (§8). -/
def inpScenario : List Char :=
  "\x7b \"item1\" : \"value1\", \"item3\" : \x7b \"sub1\" : \"subvalue1\" \x7d, \"item4\" : [ \"first\", \"second\" ] \x7d".data

/-- A document whose object nesting depth is the argument: depth `n + 1`
wraps depth `n` in one more object member. -/
def nestDoc : Nat → List Char
  | 0 => '\"' :: 'v' :: '\"' :: []
  | n + 1 => '\x7b' :: '\"' :: 'a' :: '\"' :: ':' :: (nestDoc n ++ ['\x7d'])

/-- The document the builder is meant to produce for
`\x7b "a" : "x", "b" : "y" \x7d`: the root node owns its name and two
string members. -/
def docTwoMembers : json_t :=
  { root := some (.mk (some ("root"))
      [ .mk VALUE_STRING (some ("a")) (some (.pstr ("x"))),
        .mk VALUE_STRING (some ("b")) (some (.pstr ("y"))) ]) }

/-! ## Tag invariants (claim C10)

The six tags the parser can store; `VALUE_FLOAT` and `VALUE_DOUBLE` are
absent. -/

def allowedTags : List Nat :=
  [VALUE_STRING, VALUE_NULL, VALUE_BOOLEAN, VALUE_NUMBER, VALUE_ARRAY, VALUE_OBJECT]

mutual
inductive NodeOk : JNode → Prop where
  | mk : ∀ (nm : Option String) (vs : List JValue),
      (∀ v, v ∈ vs → ValueOk v) → NodeOk (.mk nm vs)

inductive ValueOk : JValue → Prop where
  | mk : ∀ (t : Nat) (nm : Option String) (pl : Option JPayload),
      t ∈ allowedTags →
      (t = VALUE_NUMBER → ∃ i : Int, pl = some (.pint i)) →
      (∀ x, pl = some x → PayloadOk x) → ValueOk (.mk t nm pl)

inductive PayloadOk : JPayload → Prop where
  | pstr : ∀ s, PayloadOk (.pstr s)
  | pint : ∀ n, PayloadOk (.pint n)
  | pobj : ∀ nd, NodeOk nd → PayloadOk (.pobj nd)
  | parr : ∀ bl, (∀ sl, sl ∈ bl → SlotOk sl) → PayloadOk (.parr bl)

inductive SlotOk : ASlot → Prop where
  | mk : ∀ (t : Option Nat) (nm : Option String) (pl : Option JPayload),
      (∀ u, t = some u → u ∈ allowedTags) →
      (t = some VALUE_NUMBER → ∃ i : Int, pl = some (.pint i)) →
      SlotOk (.mk t nm pl)
end

/-- Every value saved in a stack frame satisfies the tag invariant. -/
def FrameOk (f : Frame) : Prop := ∀ v ∈ f.fvals, ValueOk v

/-- The builder-state invariant: the current parent, every stacked frame
and the pending value respect the tag invariant. -/
def BOk (st : BSt) : Prop :=
  NodeOk st.parent ∧ (∀ f ∈ st.stack, FrameOk f) ∧ (∀ v, st.value = some v → ValueOk v)

/-! ## Basic lexer facts -/

/-- Every token `lex` can return is one of the nine classifier kinds, i.e.
at most `TOK_DIGIT`; in particular `TOK_COLON`, `TOK_MINUS` and
`TOK_ARRAY` are never produced, so every `matches` test against them is
false and the switch cases guarded by them are dead. -/
theorem lex_fst_le (inp : List Char) (p : Nat) : (lex inp p).1 ≤ TOK_DIGIT := by
  show (classify inp (wsSkip inp p)).1 ≤ TOK_DIGIT
  unfold classify
  dsimp only
  split_ifs <;>
    norm_num [TOK_DQUOTE, TOK_LBRACE, TOK_RBRACE, TOK_LBRACK, TOK_RBRACK,
              TOK_SPACE, TOK_CHARSEQ, TOK_DIGIT]

/-! ## Claim theorems C1 to C7 and C9 -/

/-- Claim C1 (code_bug evidence): on the spec's concrete scenario input the
parser does not produce a three-member document; it dies on the
`assert(matches(TOK_COLON))` in `parse_value_name` right after reading the
first member name, because `lex` never produces a colon token. -/
theorem claim1_scenario_aborts : JSON_parse 99 inpScenario = .error .assertFail := rfl

/-- Claim C2 (code_bug evidence): releasing the two-member document frees
the root node's name twice (the `free(root->name)` sits inside the
per-value loop of `do_free`) and never frees the node structure itself. -/
theorem claim2_root_name_freed_twice :
    (JSON_free 9 docTwoMembers).count (.nodeName []) = 2 ∧
    (JSON_free 9 docTwoMembers).count (.nodeStruct []) = 0 :=
  ⟨rfl, rfl⟩

/-- Claim C3 (code_bug evidence): for the one-element array `["a"]` the
block `parse_array` returns contains no element at all — the loop breaks
before `++nr`, so the sentinel is written over the just-stored element
(whose type tag it keeps), instead of after it. -/
theorem claim3_sentinel_overwrites_sole_element :
    parse_array (("[\"a\"]").data) 99 ⟨1, TOK_LBRACK⟩ =
      .ok ([.mk (some VALUE_STRING) none (some (.pint ARRAY_END_SENTINEL))],
           ⟨5, TOK_RBRACK⟩) := rfl

/-- Claim C4 (code_bug evidence): `lex` never returns a token above
`TOK_DIGIT`, so the `TOK_MINUS` case of the builder is unreachable; and on
the document `\x7b "a" : -42 \x7d` the parse aborts (at the colon
assertion) instead of attaching the Number -42. -/
theorem claim4_minus_token_dead :
    (∀ inp p, (lex inp p).1 ≤ TOK_DIGIT) ∧
    JSON_parse 99 (("\x7b \"a\" : -42 \x7d").data) = .error .assertFail :=
  ⟨lex_fst_le, rfl⟩

/-- Claim C5 (code_bug evidence): an array whose element is itself an array
is not rejected: `lex` returns `TOK_LBRACK` (not the dead `TOK_ARRAY` the
abort branch tests), so `parse_array (("[[\"a\"]]"))` succeeds, emitting a
junk element for the inner `[` and misparsing the inner content. -/
theorem claim5_nested_array_accepted :
    parse_array (("[[\"a\"]]").data) 99 ⟨1, TOK_LBRACK⟩ =
      .ok ([.mk (some VALUE_STRING) (some ("#0")) none,
            .mk (some VALUE_NULL) none (some (.pint ARRAY_END_SENTINEL))],
           ⟨6, TOK_RBRACK⟩) := rfl

/-- Claim C6 (code_bug evidence): the classifier has no case for `':'` or
`'-'`; both fall through to the default and lex as the bare-character-run
kind `TOK_CHARSEQ` (without consuming), exactly what the claim rules out. -/
theorem claim6_colon_minus_lex_as_charseq :
    lex ((":").data) 0 = (TOK_CHARSEQ, 0) ∧
    lex (("-").data) 0 = (TOK_CHARSEQ, 0) ∧
    lex (("-42").data) 0 = (TOK_CHARSEQ, 0) :=
  ⟨rfl, rfl, rfl⟩

/-- Claim C7 (code_bug evidence): `string_type` does classify exactly
"true"/"false" as Boolean and everything else (including "null") as Null,
but the builder's bare-word branch never attaches the value: with no
pending value it dereferences the NULL `value` global, as on `\x7bfoo\x7d`. -/
theorem claim7_bare_word_not_attached :
    string_type ("true") = VALUE_BOOLEAN ∧
    string_type ("false") = VALUE_BOOLEAN ∧
    string_type ("null") = VALUE_NULL ∧
    string_type ("xyz") = VALUE_NULL ∧
    JSON_parse 99 (("\x7bfoo\x7d").data) = .error .nullDeref :=
  ⟨rfl, rfl, rfl, rfl, rfl⟩

set_option maxRecDepth 40000 in
/-- Claim C9 (code_bug evidence): a document nested to exactly the parent
stack capacity (256) does not parse successfully; the parse aborts at the
very first member name (the colon assertion), at any depth. -/
theorem claim9_depth256_aborts : JSON_parse 9 (nestDoc 256) = .error .assertFail := rfl

/-! ## Claim C8: the whitespace discipline of `lex` -/

theorem getc_default {inp : List Char} {p : Nat} (h : inp.length ≤ p) :
    getc inp p = Char.ofNat 0 := List.getD_eq_default inp (Char.ofNat 0) h

theorem getc_lt {inp : List Char} {p : Nat} (h : p < inp.length) :
    getc inp p = inp[p] := List.getD_eq_getElem inp (Char.ofNat 0) h

theorem lt_of_ctrl {inp : List Char} {p : Nat}
    (h : IS_CNTRLSPACE (getc inp p) = true) : p < inp.length := by
  by_contra hc
  rw [getc_default (Nat.le_of_not_lt hc)] at h
  exact absurd h (by decide)

theorem skipCtrl_succ {inp : List Char} {p : Nat}
    (h : IS_CNTRLSPACE (getc inp p) = true) :
    skipCtrl inp p = skipCtrl inp (p + 1) := by
  have hp : p < inp.length := lt_of_ctrl h
  unfold skipCtrl
  rw [List.drop_eq_getElem_cons hp]
  rw [ctrlRun]
  rw [← getc_lt hp, if_pos h]
  omega

theorem skipCtrl_stay {inp : List Char} {p : Nat}
    (h : IS_CNTRLSPACE (getc inp p) = false) :
    skipCtrl inp p = p := by
  unfold skipCtrl
  by_cases hp : p < inp.length
  · rw [List.drop_eq_getElem_cons hp, ctrlRun, ← getc_lt hp, if_neg (by simp [h])]
    omega
  · rw [List.drop_eq_nil_of_le (Nat.le_of_not_lt hp)]
    rfl

theorem space_not_ctrl {inp : List Char} {p : Nat} (h : getc inp p = SPACE) :
    IS_CNTRLSPACE (getc inp p) = false := by rw [h]; decide

/-- A control character (CR, NL or TAB) under the cursor is skipped before
anything is classified. -/
theorem lex_skips_ctrl (inp : List Char) (p : Nat)
    (h : IS_CNTRLSPACE (getc inp p) = true) : lex inp p = lex inp (p + 1) := by
  unfold lex wsSkip
  rw [skipCtrl_succ h]

/-- A space run whose preceding character is CR or NL is skipped whole, and
classification happens at its end. -/
theorem lex_skips_spaces_after_crnl (inp : List Char) (p : Nat)
    (h : getc inp p = SPACE) (h0 : 0 < p)
    (hcr : IS_CRNL (getc inp (p - 1)) = true) :
    lex inp p = classify inp (skipSpaces inp p) := by
  unfold lex wsSkip
  rw [skipCtrl_stay (space_not_ctrl h)]
  have hc : (getc inp p == SPACE && decide (0 < p) && IS_CRNL (getc inp (p - 1))) = true := by
    rw [h, hcr]
    simp [h0]
  rw [if_pos hc]

theorem classify_space {inp : List Char} {p : Nat} (h : getc inp p = SPACE) :
    classify inp p = (TOK_SPACE, p + 1) := by
  unfold classify
  rw [h]
  rfl

/-- A space not preceded by CR/NL is not silently skipped: it comes back as
its own `TOK_SPACE` token, consuming exactly one character. -/
theorem lex_space_token (inp : List Char) (p : Nat)
    (h : getc inp p = SPACE) (hn : p = 0 ∨ IS_CRNL (getc inp (p - 1)) = false) :
    lex inp p = (TOK_SPACE, p + 1) := by
  unfold lex wsSkip
  rw [skipCtrl_stay (space_not_ctrl h)]
  have hc : (getc inp p == SPACE && decide (0 < p) && IS_CRNL (getc inp (p - 1))) = false := by
    rcases hn with rfl | hf
    · simp
    · simp [hf]
  rw [if_neg (by simp [hc])]
  exact classify_space h

/-- Claim C8 (confirmed): `lex` (i) always skips CR/NL/TAB before
classifying, (ii) skips a run of plain spaces exactly when the run is
immediately preceded by CR or NL, classifying at the end of the run, and
(iii) turns a space that is not so preceded into a `TOK_SPACE` token — a
token boundary — rather than skipping it as part of classification. -/
theorem claim8_whitespace_discipline :
    (∀ inp p, IS_CNTRLSPACE (getc inp p) = true → lex inp p = lex inp (p + 1)) ∧
    (∀ inp p, getc inp p = SPACE → 0 < p → IS_CRNL (getc inp (p - 1)) = true →
      lex inp p = classify inp (skipSpaces inp p)) ∧
    (∀ inp p, getc inp p = SPACE → (p = 0 ∨ IS_CRNL (getc inp (p - 1)) = false) →
      lex inp p = (TOK_SPACE, p + 1)) :=
  ⟨lex_skips_ctrl, lex_skips_spaces_after_crnl, lex_space_token⟩

/-- Witness for C8: each part applied at a concrete cursor — a newline is
skipped, indentation after it is skipped to the classification point, and
a mid-line space lexes as a `TOK_SPACE` token. -/
theorem claim8_whitespace_discipline_witness :
    lex ('\n' :: ' ' :: ' ' :: 'x' :: []) 0 = lex ('\n' :: ' ' :: ' ' :: 'x' :: []) 1 ∧
    lex ('\n' :: ' ' :: ' ' :: 'x' :: []) 1 =
      classify ('\n' :: ' ' :: ' ' :: 'x' :: []) (skipSpaces ('\n' :: ' ' :: ' ' :: 'x' :: []) 1) ∧
    lex ('a' :: ' ' :: ',' :: []) 1 = (TOK_SPACE, 2) :=
  ⟨claim8_whitespace_discipline.1 _ 0 (by decide),
   claim8_whitespace_discipline.2.1 _ 1 (by decide) (by decide) (by decide),
   claim8_whitespace_discipline.2.2 _ 1 (by decide) (Or.inr (by decide))⟩

/-! ## Claim C10: the tag invariant -/
theorem string_type_mem (s : String) : string_type s ∈ allowedTags := by
  unfold string_type
  split <;> decide

theorem string_type_ne_number (s : String) : string_type s = VALUE_NUMBER → False := by
  unfold string_type
  split <;> decide

theorem slotOk_fresh : SlotOk freshSlot :=
  SlotOk.mk none none none (fun u hu => by cases hu) (fun hn => by cases hn)

theorem slotOk_fresh0 : SlotOk freshSlot0 :=
  SlotOk.mk _ _ _ (fun u hu => by injection hu with hu; subst hu; decide)
    (fun hn => by injection hn with hn; exact absurd hn (by decide))

theorem slotOk_withName (sl : ASlot) (nm : Option String) (h : SlotOk sl) :
    SlotOk (.mk sl.type nm sl.payload) := by
  cases h with
  | mk t n pl h1 h2 => exact SlotOk.mk _ _ _ h1 h2

theorem slotAt_ok {blk : List ASlot} {i : Nat} (h : ∀ sl ∈ blk, SlotOk sl) :
    SlotOk (slotAt blk i) := by
  unfold slotAt
  by_cases hi : i < blk.length
  · rw [List.getD_eq_getElem blk freshSlot hi]
    exact h _ (List.getElem_mem hi)
  · rw [List.getD_eq_default blk freshSlot (Nat.le_of_not_lt hi)]
    exact slotOk_fresh

theorem setSlots_ok {blk : List ASlot} {i : Nat} {a : ASlot}
    (hb : ∀ sl ∈ blk, SlotOk sl) (ha : SlotOk a) : ∀ sl ∈ blk.set i a, SlotOk sl := by
  intro sl hsl
  rcases List.mem_or_eq_of_mem_set hsl with h | rfl
  · exact hb _ h
  · exact ha

theorem slots_append {blk : List ASlot} {a : ASlot}
    (hb : ∀ sl ∈ blk, SlotOk sl) (ha : SlotOk a) : ∀ sl ∈ blk ++ [a], SlotOk sl := by
  intro sl hsl
  rcases List.mem_append.mp hsl with h | h
  · exact hb _ h
  · exact (List.mem_singleton.mp h) ▸ ha

theorem slotOk_sentinel {sl : ASlot} (h : SlotOk sl) :
    SlotOk (.mk sl.type none (some (.pint ARRAY_END_SENTINEL))) := by
  cases h with
  | mk t nm pl h1 h2 =>
    exact SlotOk.mk _ _ _ h1 (fun _ => ⟨ARRAY_END_SENTINEL, rfl⟩)

theorem arrayBranch_ok {inp : List Char} {st1 : PSt} {sl1 : ASlot} {r : ASlot × PSt}
    (hs : SlotOk sl1) (h : arrayBranch inp st1 sl1 = .ok r) : SlotOk r.1 := by
  unfold arrayBranch at h
  split_ifs at h
  · cases hps : parse_string inp st1 with
    | error e => rw [hps] at h; cases h
    | ok a =>
      rw [hps] at h
      injection h with h
      subst h
      exact SlotOk.mk _ _ _ (fun u hu => by injection hu with hu; subst hu; decide)
        (fun hn => by injection hn with hn; exact absurd hn (by decide))
  · dsimp only at h
    injection h with h
    subst h
    exact SlotOk.mk _ _ _ (fun u hu => by injection hu with hu; subst hu; decide)
      (fun hn => ⟨_, rfl⟩)
  · dsimp only at h
    injection h with h
    subst h
    exact SlotOk.mk _ _ _ (fun u hu => by injection hu with hu; subst hu; decide)
      (fun hn => ⟨_, rfl⟩)
  · cases hps : parse_string inp st1 with
    | error e => rw [hps] at h; cases h
    | ok a =>
      rw [hps] at h
      injection h with h
      subst h
      exact SlotOk.mk _ _ _
        (fun u hu => by injection hu with hu; subst hu; exact string_type_mem _)
        (fun hn => by injection hn with hn; exact absurd hn (string_type_ne_number _))
  · injection h with h
    subst h
    exact hs

theorem nodeOk_values {nd : JNode} (h : NodeOk nd) : ∀ v ∈ nd.values, ValueOk v := by
  cases h with
  | mk nm vs hv => exact hv

theorem nodeOk_add {p : JNode} {v : JValue} (hp : NodeOk p) (hv : ValueOk v) :
    NodeOk (add_value p v) := by
  cases p with
  | mk nm vs =>
    refine NodeOk.mk _ _ (fun w hw => ?_)
    rcases List.mem_append.mp hw with h | h
    · exact nodeOk_values hp w h
    · exact (List.mem_singleton.mp h) ▸ hv

theorem valueOk_str (nm : Option String) (s : String) :
    ValueOk (.mk VALUE_STRING nm (some (.pstr s))) :=
  ValueOk.mk _ _ _ (by decide) (fun hn => absurd hn (by decide))
    (fun x hx => by injection hx with hx; subst hx; exact PayloadOk.pstr s)

theorem valueOk_fresh (nm : Option String) :
    ValueOk (.mk VALUE_STRING nm none) :=
  ValueOk.mk _ _ _ (by decide) (fun hn => absurd hn (by decide))
    (fun x hx => by cases hx)

theorem valueOk_num (nm : Option String) (n : Int) :
    ValueOk (.mk VALUE_NUMBER nm (some (.pint n))) :=
  ValueOk.mk _ _ _ (by decide) (fun _ => ⟨n, rfl⟩)
    (fun x hx => by injection hx with hx; subst hx; exact PayloadOk.pint n)

theorem valueOk_obj_none (nm : Option String) :
    ValueOk (.mk VALUE_OBJECT nm none) :=
  ValueOk.mk _ _ _ (by decide) (fun hn => absurd hn (by decide))
    (fun x hx => by cases hx)

theorem valueOk_obj {nm : Option String} {nd : JNode} (h : NodeOk nd) :
    ValueOk (.mk VALUE_OBJECT nm (some (.pobj nd))) :=
  ValueOk.mk _ _ _ (by decide) (fun hn => absurd hn (by decide))
    (fun x hx => by injection hx with hx; subst hx; exact PayloadOk.pobj _ h)

theorem valueOk_arr {nm : Option String} {bl : List ASlot}
    (h : ∀ sl ∈ bl, SlotOk sl) :
    ValueOk (.mk VALUE_ARRAY nm (some (.parr bl))) :=
  ValueOk.mk _ _ _ (by decide) (fun hn => absurd hn (by decide))
    (fun x hx => by injection hx with hx; subst hx; exact PayloadOk.parr _ h)

theorem valueOk_bare (nm : Option String) (s : String) :
    ValueOk (.mk (string_type s) nm (some (.pstr s))) :=
  ValueOk.mk _ _ _ (string_type_mem s)
    (fun hn => absurd hn (fun hn => string_type_ne_number s hn))
    (fun x hx => by injection hx with hx; subst hx; exact PayloadOk.pstr s)

theorem nodeOk_reattach {f : Frame} {child : JNode} (hf : FrameOk f) (hc : NodeOk child) :
    NodeOk (reattach f child) := by
  refine NodeOk.mk _ _ (fun w hw => ?_)
  rcases List.mem_append.mp hw with h | h
  · exact hf w h
  · exact (List.mem_singleton.mp h) ▸ valueOk_obj hc

theorem rebuild_ok {stk : List Frame} {nd : JNode}
    (hs : ∀ f ∈ stk, FrameOk f) (hn : NodeOk nd) : NodeOk (rebuild stk nd) := by
  induction stk generalizing nd with
  | nil => exact hn
  | cons f rest ih =>
    exact ih (fun g hg => hs g (List.mem_cons_of_mem f hg))
      (nodeOk_reattach (hs f (List.mem_cons_self f rest)) hn)

theorem parse_array_loop_slots (inp : List Char) :
    ∀ fuel blk st bl st1, (∀ sl ∈ blk, SlotOk sl) →
      parse_array_loop inp fuel blk st = .ok (bl, st1) → ∀ sl ∈ bl, SlotOk sl := by
  intro fuel
  induction fuel with
  | zero =>
    intro blk st bl st1 _ h
    exact absurd h (by simp [parse_array_loop])
  | succ n ih =>
    intro blk st bl st1 hblk h
    rw [parse_array_loop] at h
    dsimp only at h
    set nr := blk.length - 1 with hnr
    set sl1 : ASlot :=
      .mk (slotAt blk nr).type (some ("#" ++ Nat.repr nr)) (slotAt blk nr).payload with hsl1
    have hs1 : SlotOk sl1 := slotOk_withName _ _ (slotAt_ok hblk)
    cases hbr : arrayBranch inp (advance inp st) sl1 with
    | error e =>
      rw [hbr] at h
      cases h
    | ok pr =>
      rw [hbr] at h
      have hs2 : SlotOk pr.1 := arrayBranch_ok hs1 hbr
      have hblk2 : ∀ sl ∈ blk.set nr pr.1, SlotOk sl := setSlots_ok hblk hs2
      cases pr with
      | mk sl2 st2 =>
        dsimp only at h
        split at h
        · injection h with h
          injection h with hbl hst
          subst hbl
          exact setSlots_ok hblk2 (slotOk_sentinel (slotAt_ok hblk2))
        · exact ih _ _ _ _ (slots_append hblk2 slotOk_fresh) h

theorem bok_advanceB {inp : List Char} {st : BSt} (h : BOk st) : BOk (advanceB inp st) := h

theorem bok_digit {inp : List Char} {st st' : BSt}
    (h : BOk st) (hs : digitCase inp st = .ok st') : BOk st' := by
  unfold digitCase at hs
  split_ifs at hs <;>
    (cases hv : st.value with
     | none => rw [hv] at hs; cases hs
     | some v =>
       rw [hv] at hs
       dsimp only at hs
       injection hs with hs
       subst hs
       refine ⟨nodeOk_add h.1 (valueOk_num _ _), h.2.1, fun w hw => ?_⟩
       injection hw with hw
       subst hw
       exact valueOk_num _ _)

theorem bok_minus {inp : List Char} {st st' : BSt}
    (h : BOk st) (hs : minusCase inp st = .ok st') : BOk st' := by
  unfold minusCase at hs
  dsimp only at hs
  split_ifs at hs
  refine bok_digit ?_ hs
  exact h

theorem bok_dquote {inp : List Char} {st st' : BSt}
    (h : BOk st) (hs : dquoteCase inp st = .ok st') : BOk st' := by
  unfold dquoteCase at hs
  split_ifs at hs
  · cases hv : st.value with
    | none => rw [hv] at hs; cases hs
    | some v =>
      rw [hv] at hs
      cases hps : parse_string inp st.lexSt with
      | error e => rw [hps] at hs; cases hs
      | ok a =>
        rw [hps] at hs
        simp only [bind, Except.bind] at hs
        injection hs with hs
        subst hs
        refine ⟨nodeOk_add h.1 (valueOk_str _ _), h.2.1, fun w hw => ?_⟩
        injection hw with hw
        subst hw
        exact valueOk_str _ _
  · cases hpn : parse_value_name inp st.lexSt with
    | error e => rw [hpn] at hs; cases hs
    | ok a =>
      rw [hpn] at hs
      simp only [bind, Except.bind] at hs
      injection hs with hs
      subst hs
      refine ⟨h.1, h.2.1, fun w hw => ?_⟩
      injection hw with hw
      subst hw
      exact valueOk_fresh _

theorem bok_lbrace {st st' : BSt}
    (h : BOk st) (hs : lbraceCase st = .ok st') : BOk st' := by
  unfold lbraceCase at hs
  cases hv : st.value with
  | none => rw [hv] at hs; cases hs
  | some v =>
    rw [hv] at hs
    split_ifs at hs
    injection hs with hs
    subst hs
    refine ⟨NodeOk.mk _ _ (fun w hw => absurd hw (List.not_mem_nil w)), ?_, ?_⟩
    · intro f hf
      rcases List.mem_cons.mp hf with rfl | hf
      · exact nodeOk_values h.1
      · exact h.2.1 f hf
    · intro w hw
      injection hw with hw
      subst hw
      exact valueOk_obj_none _

theorem bok_rbrace {st st' : BSt}
    (h : BOk st) (hs : rbraceCase st = .ok st') : BOk st' := by
  unfold rbraceCase at hs
  cases hstk : st.stack with
  | nil => rw [hstk] at hs; cases hs
  | cons f rest =>
    rw [hstk] at hs
    injection hs with hs
    subst hs
    have hf : FrameOk f := h.2.1 f (by rw [hstk]; exact List.mem_cons_self f rest)
    refine ⟨nodeOk_reattach hf h.1, ?_, h.2.2⟩
    intro g hg
    exact h.2.1 g (by rw [hstk]; exact List.mem_cons_of_mem f hg)

theorem bok_lbrack {inp : List Char} {fuel : Nat} {st st' : BSt}
    (h : BOk st) (hs : lbrackCase inp fuel st = .ok st') : BOk st' := by
  unfold lbrackCase at hs
  cases hv : st.value with
  | none => rw [hv] at hs; cases hs
  | some v =>
    rw [hv] at hs
    cases hpa : parse_array inp fuel st.lexSt with
    | error e => rw [hpa] at hs; cases hs
    | ok a =>
      rw [hpa] at hs
      simp only [bind, Except.bind] at hs
      injection hs with hs
      subst hs
      have hsl : ∀ sl ∈ a.1, SlotOk sl := by
        cases a with
        | mk bl l =>
          exact parse_array_loop_slots inp fuel _ _ _ _
            (fun sl hsl => (List.mem_singleton.mp hsl) ▸ slotOk_fresh0) hpa
      refine ⟨nodeOk_add h.1 (valueOk_arr hsl), h.2.1, fun w hw => ?_⟩
      injection hw with hw
      subst hw
      exact valueOk_arr hsl

theorem bok_charseq {inp : List Char} {st st' : BSt}
    (h : BOk st) (hs : charseqCase inp st = .ok st') : BOk st' := by
  unfold charseqCase at hs
  cases hv : st.value with
  | none => rw [hv] at hs; cases hs
  | some v =>
    rw [hv] at hs
    dsimp only at hs
    injection hs with hs
    subst hs
    refine ⟨h.1, h.2.1, fun w hw => ?_⟩
    injection hw with hw
    subst hw
    exact valueOk_bare _ _

theorem bok_step {inp : List Char} {fuel : Nat} {st st' : BSt}
    (h : BOk st) (hs : stepB inp fuel st = .ok st') : BOk st' := by
  unfold stepB at hs
  split_ifs at hs
  · exact bok_minus h hs
  · exact bok_digit h hs
  · injection hs with hs; subst hs; exact h
  · exact bok_dquote h hs
  · exact bok_lbrace h hs
  · exact bok_rbrace h hs
  · exact bok_lbrack h hs
  · exact bok_charseq h hs
  · injection hs with hs; subst hs; exact h

theorem bok_loop {inp : List Char} :
    ∀ fuel (st st' : BSt), BOk st → JSON_loop inp fuel st = .ok st' → BOk st' := by
  intro fuel
  induction fuel with
  | zero =>
    intro st st' _ h
    exact absurd h (by simp [JSON_loop])
  | succ n ih =>
    intro st st' hst h
    rw [JSON_loop] at h
    split at h
    · cases hsb : stepB inp n st with
      | error e => rw [hsb] at h; cases h
      | ok st1 =>
        rw [hsb] at h
        exact ih _ _ (bok_advanceB (bok_step hst hsb)) h
    · injection h with h
      subst h
      exact hst

theorem json_parse_root_ok {fuel : Nat} {inp : List Char} {j : json_t}
    (h : JSON_parse fuel inp = .ok j) : ∀ nd, j.root = some nd → NodeOk nd := by
  unfold JSON_parse at h
  dsimp only at h
  split_ifs at h
  split at h
  · cases h
  · rename_i st heq
    injection h with h
    subst h
    intro nd hnd
    injection hnd with hnd
    subst hnd
    have hst : BOk st := by
      refine bok_loop _ _ _ ?_ heq
      refine ⟨NodeOk.mk _ _ (fun w hw => absurd hw (List.not_mem_nil w)), ?_, ?_⟩
      · intro f hf
        exact absurd hf (List.not_mem_nil f)
      · intro w hw
        cases hw
    exact rebuild_ok hst.2.1 hst.1


/-- Claim C10 (confirmed): every tag the parser ever stores — in values the
builder attaches and in cells `parse_array` writes — lies in the six-tag
set that omits `VALUE_FLOAT` and `VALUE_DOUBLE` (see `allowedTags`), and a
`VALUE_NUMBER` always carries an integer payload produced from a digit run
by `parse_number` (possibly negated).  Cells never written keep no tag and
are outside any claim the code can make about them. -/
theorem claim10_no_float_double_tags :
    (∀ fuel inp j, JSON_parse fuel inp = .ok j → ∀ nd, j.root = some nd → NodeOk nd) ∧
    (∀ inp fuel st bl st1, parse_array inp fuel st = .ok (bl, st1) → ∀ sl ∈ bl, SlotOk sl) :=
  ⟨fun _ _ _ h => json_parse_root_ok h,
   fun inp fuel _ _ _ h => parse_array_loop_slots inp fuel _ _ _ _
     (fun _ hsl => (List.mem_singleton.mp hsl) ▸ slotOk_fresh0) h⟩

/-- Witness for C10: the theorem applied to the successful parse of an
empty object and to the block `parse_array` returns for `["a"]`. -/
theorem claim10_no_float_double_tags_witness :
    NodeOk (.mk (some ("root")) []) ∧
    SlotOk (.mk (some VALUE_STRING) none (some (.pint ARRAY_END_SENTINEL))) :=
  ⟨claim10_no_float_double_tags.1 9 (("\x7b\x7d").data)
     { root := some (.mk (some ("root")) []) } rfl _ rfl,
   claim10_no_float_double_tags.2 (("[\"a\"]").data) 99 ⟨1, TOK_LBRACK⟩
     [.mk (some VALUE_STRING) none (some (.pint ARRAY_END_SENTINEL))] ⟨5, TOK_RBRACK⟩ rfl
     (.mk (some VALUE_STRING) none (some (.pint ARRAY_END_SENTINEL))) (by simp)⟩

end JsonC
